import Mathlib

/-!
Verification of the response-to-UI binding engine of flow-action-gateway.

The definitions below are a shallow embedding of `src/ui/auto_data_binder.py`
and the two provider overrides in `src/ui/data_bindings/`.  Python JSON values
are modelled by the inductive type `JSON` (numbers as integers; the claims
under study do not involve floats).  Python strings are Lean `String`s, with
slicing/length on code points, matching Python semantics for the inputs at
hand.  Functions from the Python standard library (`html.unescape`,
`HTMLParser`, `json.dumps`, `urllib.parse.urlparse`, `repr`/`str` of
containers) are modelled by total Lean functions that are faithful on the
character classes exercised here; each such model carries a comment naming
the simplification.  Exceptions are modelled by `Except String`; a `try ...
except` block becomes a `match` on the `Except` value.
-/

namespace FlowGateway

/-- Python slice `s[:n]` on a string (first `n` code points). -/
def strTake (s : String) (n : Nat) : String :=
  ⟨s.data.take n⟩

/-- Python `s.endswith(suffix)`. -/
def strEndsWith (s suffix : String) : Bool :=
  suffix.data.isSuffixOf s.data

/-- Python `s.startswith(p)`. -/
def strStartsWith (s p : String) : Bool :=
  p.data.isPrefixOf s.data

/-- Containment of `sub` as a contiguous sublist of `s`. -/
def listIsInfixOf : List Char → List Char → Bool
  | sub, [] => sub.isEmpty
  | sub, c :: rest => sub.isPrefixOf (c :: rest) || listIsInfixOf sub rest

/-- Python `sub in s` (substring containment). -/
def strContainsSub (s sub : String) : Bool :=
  listIsInfixOf sub.data s.data

/-- Python `s.lower()`; `Char.toLower` is ASCII-only, which covers every key
the engine's classifiers are applied to in this development. -/
def pyLower (s : String) : String :=
  ⟨s.data.map Char.toLower⟩

/-- Python whitespace for `str.split`, `str.strip` and the regex `\s`
(ASCII subset; the Unicode spaces are not exercised here). -/
def isPySpace (c : Char) : Bool :=
  c = ' ' || c = '\t' || c = '\n' || c = '\x0d' || c = '\x0b' || c = '\x0c'

/-- A parsed JSON value as produced by `json.loads`: the dynamic value space
the binding engine dispatches on.  Object fields are kept in insertion
order, as Python dicts do. -/
inductive JSON where
  | null
  | bool (b : Bool)
  | num (n : Int)
  | str (s : String)
  | arr (elts : List JSON)
  | obj (fields : List (String × JSON))

/-- Structural size of a JSON value, used only as recursion fuel for the
container-printing models below.  Well-founded recursion is fine here:
the claims only ever force reduction of printing on scalar values. -/
def jsize : JSON → Nat
  | .null => 1
  | .bool _ => 1
  | .num _ => 1
  | .str _ => 1
  | .arr xs => 1 + (xs.attach.map (fun x => jsize x.1)).foldl (· + ·) 0
  | .obj fs => 1 + (fs.attach.map (fun kv => jsize kv.1.2)).foldl (· + ·) 0
decreasing_by
  · have h := List.sizeOf_lt_of_mem x.2
    simp only [JSON.arr.sizeOf_spec]
    omega
  · have h := List.sizeOf_lt_of_mem kv.2
    have h2 : sizeOf kv.1.2 < sizeOf kv.1 := by
      obtain ⟨a, b⟩ := kv.1
      simp
    simp only [JSON.obj.sizeOf_spec]
    omega

/-- Python truthiness (`bool(v)`) on JSON values. -/
def pyTruthy : JSON → Bool
  | .null => false
  | .bool b => b
  | .num n => n != 0
  | .str s => !s.isEmpty
  | .arr xs => !xs.isEmpty
  | .obj fs => !fs.isEmpty

/-- Whether the value is a Python `bool`. -/
def isBoolJ : JSON → Bool
  | .bool _ => true
  | _ => false

/-- Whether the value is a Python `dict`. -/
def isObjJ : JSON → Bool
  | .obj _ => true
  | _ => false

/-- Whether the value is Python `None`. -/
def isNullJ : JSON → Bool
  | .null => true
  | _ => false

/-- Python `value is None or value == ""` (the field-loop emptiness test;
`x == ""` is false for every non-string `x` in Python 3). -/
def isNoneOrEmpty : JSON → Bool
  | .null => true
  | .str s => s.isEmpty
  | _ => false

/-- First binding of `k` in an ordered field list (Python `obj[k]` /
`k in obj`; dicts have unique keys, so first-match lookup is faithful). -/
def lookupFirst (fs : List (String × JSON)) (k : String) : Option JSON :=
  (fs.find? (fun p => p.1 == k)).map (·.2)

/-- Python `obj.get(k, default)`. -/
def pyGet (fs : List (String × JSON)) (k : String) (default : JSON) : JSON :=
  (lookupFirst fs k).getD default

/-- Python `repr` of a JSON value, with the fuel argument discharging the
nested recursion (`sizeOf` fuel is always sufficient).  Model of the
stdlib: string `repr` quoting is simplified to plain single quotes without
escape processing; the engine only ever shows `repr` output for container
values, which the claims do not inspect character by character. -/
def pyReprAux : Nat → JSON → String
  | _, .null => "None"
  | _, .bool true => "True"
  | _, .bool false => "False"
  | _, .num n => toString n
  | _, .str s => "\x27" ++ s ++ "\x27"
  | 0, .arr _ => ""
  | f + 1, .arr xs => "[" ++ ", ".intercalate (xs.map (fun x => pyReprAux f x)) ++ "]"
  | 0, .obj _ => ""
  | f + 1, .obj fs =>
      "\x7b" ++ ", ".intercalate
        (fs.map (fun kv => "\x27" ++ kv.1 ++ "\x27: " ++ pyReprAux f kv.2)) ++ "\x7d"

/-- Python `str(v)` on a JSON value. -/
def pyStr (v : JSON) : String :=
  match v with
  | .str s => s
  | .null => "None"
  | .bool true => "True"
  | .bool false => "False"
  | .num n => toString n
  | v => pyReprAux (jsize v) v

/-- JSON string escaping for `json.dumps` (model of the stdlib: the common
escapes; `\uXXXX` escaping of control and non-ASCII characters omitted —
the claims never inspect dumped output). -/
def jsonEscChar (c : Char) : List Char :=
  if c = '"' then ['\\', '"']
  else if c = '\\' then ['\\', '\\']
  else if c = '\n' then ['\\', 'n']
  else if c = '\t' then ['\\', 't']
  else if c = '\x0d' then ['\\', 'r']
  else [c]

/-- Escape a string for `json.dumps` output. -/
def jsonEscape (s : String) : String :=
  ⟨s.data.foldr (fun c acc => jsonEscChar c ++ acc) []⟩

/-- Python `json.dumps(v, default=str)` with default separators, fuel as in
`pyReprAux`. -/
def jsonDumpsAux : Nat → JSON → String
  | _, .null => "null"
  | _, .bool true => "true"
  | _, .bool false => "false"
  | _, .num n => toString n
  | _, .str s => "\"" ++ jsonEscape s ++ "\""
  | 0, .arr _ => ""
  | f + 1, .arr xs => "[" ++ ", ".intercalate (xs.map (fun x => jsonDumpsAux f x)) ++ "]"
  | 0, .obj _ => ""
  | f + 1, .obj fs =>
      "\x7b" ++ ", ".intercalate
        (fs.map (fun kv => "\"" ++ jsonEscape kv.1 ++ "\": " ++ jsonDumpsAux f kv.2)) ++ "\x7d"

/-- Python `json.dumps(v, default=str)`. -/
def jsonDumps (v : JSON) : String :=
  jsonDumpsAux (jsize v) v

/-- Digit value of a hex/decimal digit character. -/
def digitVal (c : Char) : Nat :=
  if '0' ≤ c ∧ c ≤ '9' then c.toNat - '0'.toNat
  else if 'a' ≤ c ∧ c ≤ 'f' then c.toNat - 'a'.toNat + 10
  else if 'A' ≤ c ∧ c ≤ 'F' then c.toNat - 'A'.toNat + 10
  else 0

/-- Whether `c` is a digit in the given base (10 or 16). -/
def isDigitBase (base : Nat) (c : Char) : Bool :=
  if base = 16 then c.isDigit || ('a' ≤ c && c ≤ 'f') || ('A' ≤ c && c ≤ 'F')
  else c.isDigit

/-- Decode a numeric character-reference codepoint; invalid codepoints give
the replacement character (model of the stdlib table, which maps most
invalid references to U+FFFD). -/
def charOfCodepoint (n : Nat) : Char :=
  if n.isValidChar then Char.ofNat n else '�'

/-- Named HTML entities recognised by the model (core subset of the stdlib
table; the sources under verification only exercise numeric references). -/
def lookupEntity (name : String) : Option Char :=
  if name == "amp" then some '&'
  else if name == "lt" then some '<'
  else if name == "gt" then some '>'
  else if name == "quot" then some '"'
  else if name == "apos" then some '\x27'
  else if name == "nbsp" then some '\xA0'
  else none

/-- Parse one character reference directly after a `&`; returns the decoded
character and the number of input characters consumed.  Numeric references
allow an optional trailing `;` as in the stdlib; named references require
it (the legacy semicolon-less named forms are not modelled). -/
def parseCharref (cs : List Char) : Option (Char × Nat) :=
  match cs with
  | '#' :: rest =>
    match rest with
    | 'x' :: rest2 =>
      let digits := rest2.takeWhile (isDigitBase 16)
      if digits.isEmpty then none
      else
        let n := digits.foldl (fun acc c => acc * 16 + digitVal c) 0
        let semi : Nat := match rest2.drop digits.length with
          | ';' :: _ => 1
          | _ => 0
        some (charOfCodepoint n, 2 + digits.length + semi)
    | 'X' :: rest2 =>
      let digits := rest2.takeWhile (isDigitBase 16)
      if digits.isEmpty then none
      else
        let n := digits.foldl (fun acc c => acc * 16 + digitVal c) 0
        let semi : Nat := match rest2.drop digits.length with
          | ';' :: _ => 1
          | _ => 0
        some (charOfCodepoint n, 2 + digits.length + semi)
    | _ =>
      let digits := rest.takeWhile (isDigitBase 10)
      if digits.isEmpty then none
      else
        let n := digits.foldl (fun acc c => acc * 10 + digitVal c) 0
        let semi : Nat := match rest.drop digits.length with
          | ';' :: _ => 1
          | _ => 0
        some (charOfCodepoint n, 1 + digits.length + semi)
  | _ =>
    let name := cs.takeWhile Char.isAlphanum
    match cs.drop name.length with
    | ';' :: _ => (lookupEntity ⟨name⟩).map (fun c => (c, name.length + 1))
    | _ => none

/-- Scanner for `html.unescape`; the fuel (initialised to the input length)
only discharges termination — every step consumes at least one character,
so it never runs out. -/
def unescapeAux : Nat → List Char → List Char
  | 0, cs => cs
  | _ + 1, [] => []
  | f + 1, '&' :: rest =>
    match parseCharref rest with
    | some (c, n) => c :: unescapeAux f (rest.drop n)
    | none => '&' :: unescapeAux f rest
  | f + 1, c :: rest => c :: unescapeAux f rest

/-- Python `html.unescape`: decode HTML character entities. -/
def pyUnescape (s : String) : String :=
  ⟨unescapeAux s.data.length s.data⟩

/-- Tag-stripping scan, modelling `HTMLStripper` (an `HTMLParser` with
`convert_charrefs=True` collecting `handle_data`): text outside tags is
kept, character references in it are decoded, a `<` followed by a tag
opener enters tag mode until the next `>`, a lone `<` is data, and an
unterminated trailing tag stays buffered (contributes nothing).  Comment
and CDATA minutiae of the stdlib parser are not modelled — the sources
feed it plain tagged text. -/
def stripTagsAux : Nat → Bool → List Char → List Char
  | 0, _, _ => []
  | _ + 1, _, [] => []
  | f + 1, true, c :: rest =>
    if c = '>' then stripTagsAux f false rest else stripTagsAux f true rest
  | f + 1, false, '<' :: c :: rest =>
    if c.isAlpha || c = '/' || c = '!' || c = '?' then stripTagsAux f true (c :: rest)
    else '<' :: stripTagsAux f false (c :: rest)
  | _ + 1, false, ['<'] => []
  | f + 1, false, '&' :: rest =>
    match parseCharref rest with
    | some (c, n) => c :: stripTagsAux f false (rest.drop n)
    | none => '&' :: stripTagsAux f false rest
  | f + 1, false, c :: rest => c :: stripTagsAux f false rest

/-- The fallible markup-parsing step of `strip_html` (the `stripper.feed`
call): produces the concatenated text data.  Total on this domain; the
`Except` layer records the `try` discipline of the source. -/
def htmlStripParse (t : String) : Except Unit String :=
  .ok ⟨stripTagsAux (t.data.length + 1) false t.data⟩

/-- Collapse whitespace runs to a single space (`re.sub(r's+', ' ', ...)`
with a whitespace class). -/
def collapseWs : List Char → List Char
  | [] => []
  | [c] => if isPySpace c then [' '] else [c]
  | c1 :: c2 :: rest =>
    if isPySpace c1 ∧ isPySpace c2 then collapseWs (c2 :: rest)
    else (if isPySpace c1 then ' ' else c1) :: collapseWs (c2 :: rest)

/-- Python `str.strip()`. -/
def pyStrip (cs : List Char) : List Char :=
  ((cs.dropWhile isPySpace).reverse.dropWhile isPySpace).reverse

/-- The body of `strip_html` on a string, parameterised by the markup parser
so that the exception-fallback branch (`except: return text`) is a live
part of the definition: on parser failure the entity-decoded text is
returned unchanged. -/
def stripHtmlWith (p : String → Except Unit String) (text : String) : String :=
  let t := pyUnescape text
  if !t.data.contains '<' && !t.data.contains '>' then t
  else
    match p t with
    | .ok cleaned => ⟨pyStrip (collapseWs cleaned.data)⟩
    | .error _ => t

/-- Source `strip_html` restricted to string input (the non-string guard is
`strip_html` below). -/
def strip_htmlStr (text : String) : String :=
  stripHtmlWith htmlStripParse text

/-- Source `strip_html(text)`: non-strings are stringified and returned. -/
def strip_html : JSON → String
  | .str s => strip_htmlStr s
  | v => pyStr v

/-- Source `truncate_text(text, max_length)`: keep the first `maxLength`
characters and append an ellipsis when over the limit. -/
def truncate_text (text : String) (maxLength : Nat) : String :=
  if text.length ≤ maxLength then text
  else strTake text maxLength ++ "..."

/-- Source `should_skip_field(key, value)`. -/
def should_skip_field (key : String) (value : JSON) : Bool :=
  let keyLower := pyLower key
  if isBoolJ value then true
  else if keyLower == "id" || strEndsWith keyLower "_id" then true
  else if strEndsWith keyLower "_at" then true
  else if ["node_id", "sha", "etag", "gravatar_id"].contains keyLower then true
  else false

/-- Source `is_url_field(key, value)`. -/
def is_url_field (key : String) (value : JSON) : Bool :=
  match value with
  | .str s =>
    let keyLower := pyLower key
    strContainsSub keyLower "url" || strContainsSub keyLower "link" ||
      strContainsSub keyLower "href" ||
      strStartsWith s "http://" || strStartsWith s "https://"
  | _ => false

/-- Python `str.capitalize()`: first character upper, rest lower. -/
def pyCapitalize (w : String) : String :=
  match w.data with
  | [] => ""
  | c :: rest => ⟨c.toUpper :: rest.map Char.toLower⟩

/-- Python `str.split()` (split on whitespace runs, no empty words). -/
def pySplitWsAux : List Char → List Char → List String
  | [], acc => if acc.isEmpty then [] else [⟨acc.reverse⟩]
  | c :: rest, acc =>
    if isPySpace c then
      if acc.isEmpty then pySplitWsAux rest []
      else ⟨acc.reverse⟩ :: pySplitWsAux rest []
    else pySplitWsAux rest (c :: acc)

/-- Source `format_field_name(key)`: snake_case to Title Case. -/
def format_field_name (key : String) : String :=
  let replaced := key.data.map (fun c => if c = '_' then ' ' else c)
  let words := pySplitWsAux replaced []
  " ".intercalate (words.map pyCapitalize)

/-- Source `infer_icon(data)`: first matching keyword family wins. -/
def infer_icon (fs : List (String × JSON)) : String :=
  let keys := fs.map (fun kv => pyLower kv.1)
  if ["repo", "repository", "github"].any (fun k => keys.contains k) then "📦"
  else if ["search", "query", "results"].any (fun k => keys.contains k) then "🔍"
  else if ["file", "document", "path"].any (fun k => keys.contains k) then "📄"
  else if ["user", "author", "owner"].any (fun k => keys.contains k) then "👤"
  else if ["error", "exception"].any (fun k => keys.contains k) then "⚠️"
  else "📋"

/-- KeyValueComponent schema (`components/keyvalue.py`). -/
structure KeyValueComponent where
  key : String
  value : String
deriving DecidableEq

/-- LinkComponent schema (`components/link.py`). -/
structure LinkComponent where
  text : String
  url : String
deriving DecidableEq

/-- Banner severity (`Literal["success", "error", "info"]`). -/
inductive Severity where
  | success
  | error
  | info
deriving DecidableEq

/-- The component variants the binding engine emits: Banner, Card (whose
fields are KeyValues and whose link slot is a Link), and List.  The File
variant of the component set is never produced by the engine and is not
needed by any claim. -/
inductive Component where
  | banner (ty : Severity) (message : String) (icon : Option String)
  | card (title : String) (subtitle : Option String) (icon : Option String)
      (metadata : Option (List KeyValueComponent)) (link : Option LinkComponent)
  | list (items : List Component)

/-- Field list of a Card (empty for non-Cards and for `metadata=None`). -/
def cardFields : Component → List KeyValueComponent
  | .card _ _ _ md _ => md.getD []
  | _ => []

/-- Helper for comma grouping: process the reversed digit list, inserting a
comma before every third digit. -/
def groupRevAux : List Char → Nat → List Char
  | [], _ => []
  | c :: rest, i =>
    if i ≠ 0 ∧ i % 3 = 0 then ',' :: c :: groupRevAux rest (i + 1)
    else c :: groupRevAux rest (i + 1)

/-- Python `f"{n:,}"` for an integer: thousands grouping with commas. -/
def intWithCommas (n : Int) : String :=
  let sign := if n < 0 then "-" else ""
  let digits := (toString n.natAbs).data
  sign ++ ⟨(groupRevAux digits.reverse 0).reverse⟩

/-- Card-builder value coercion (`object_to_card` lines 203-220): nested
objects prefer a `login`/`name` subfield else are JSON-dumped, sequences
become a count placeholder, integers at or above 1000 are comma-grouped,
everything else is stringified.  The result is the Python value passed on
to `strip_html` (a JSON value: the subfield extracted from a nested
object need not be a string). -/
def cardCoerce (v : JSON) : JSON :=
  match v with
  | .obj fs =>
    match lookupFirst fs "login" with
    | some lv => lv
    | none =>
      match lookupFirst fs "name" with
      | some nv => nv
      | none => .str (jsonDumps (.obj fs))
  | .arr xs => .str ("[" ++ toString xs.length ++ " items]")
  | .num n => .str (if 1000 ≤ n then intWithCommas n else toString n)
  | other => .str (pyStr other)

/-- The formatted KeyValue the Card-builder emits for a kept field
(`object_to_card` lines 222-231): coerce, strip markup, truncate to 200. -/
def mkCardKV (k : String) (v : JSON) : KeyValueComponent :=
  ⟨format_field_name k, truncate_text (strip_html (cardCoerce v)) 200⟩

/-- The string payload of a URL-classified field (`is_url_field` only
accepts strings, so the default branch is unreachable). -/
def urlStr : JSON → String
  | .str s => s
  | v => pyStr v

/-- The Link the Card-builder records for a URL field (`object_to_card`
lines 196-198). -/
def mkCardLink (k : String) (v : JSON) : LinkComponent :=
  ⟨if pyLower k == "url" then "Open" else format_field_name k, urlStr v⟩

/-- Title priority probe (`object_to_card` lines 161-165): key present with
a truthy value. -/
def titlePick (fs : List (String × JSON)) (k : String) : Option (String × String) :=
  match lookupFirst fs k with
  | some v => if pyTruthy v then some (k, pyStr v) else none
  | none => none

/-- Title fallback (`object_to_card` lines 168-173): first string field of
length strictly between 3 and 100. -/
def titleFallback : List (String × JSON) → Option (String × String)
  | [] => none
  | (k, .str s) :: rest =>
    if 3 < s.length ∧ s.length < 100 then some (k, s) else titleFallback rest
  | _ :: rest => titleFallback rest

/-- Title selection of the Card-builder: returns the title and the key it
was taken from (`none` when the literal fallback "Result" is used). -/
def titleOf (fs : List (String × JSON)) : String × Option String :=
  match titlePick fs "title" with
  | some (k, t) => (t, some k)
  | none =>
    match titlePick fs "name" with
    | some (k, t) => (t, some k)
    | none =>
      match titlePick fs "full_name" with
      | some (k, t) => (t, some k)
      | none =>
        match titlePick fs "id" with
        | some (k, t) => (t, some k)
        | none =>
          match titleFallback fs with
          | some (k, s) => (s, some k)
          | none => ("Result", none)

/-- The field loop of `object_to_card` (lines 182-235): walk the fields in
order, skipping the title field, null/empty values and skip-classified
fields; URL fields are recorded as candidate links; everything else is
formatted into a KeyValue.  `cnt` is the number of KeyValues already
collected; when it reaches `m` after an append, the loop breaks (so any
later links are dropped too, matching the `break`). -/
def collectFields (m : Nat) (tk : Option String) :
    List (String × JSON) → Nat → List KeyValueComponent × List LinkComponent
  | [], _ => ([], [])
  | (k, v) :: rest, cnt =>
    if tk = some k then collectFields m tk rest cnt
    else if isNoneOrEmpty v then collectFields m tk rest cnt
    else if should_skip_field k v then collectFields m tk rest cnt
    else if is_url_field k v then
      ((collectFields m tk rest cnt).1, mkCardLink k v :: (collectFields m tk rest cnt).2)
    else if m ≤ cnt + 1 then ([mkCardKV k v], [])
    else (mkCardKV k v :: (collectFields m tk rest (cnt + 1)).1,
          (collectFields m tk rest (cnt + 1)).2)

/-- Source `object_to_card(obj, max_fields)`. -/
def object_to_card (fs : List (String × JSON)) (maxFields : Nat) : Component :=
  let t := titleOf fs
  let collected := collectFields maxFields t.2 fs 0
  .card t.1 none (some (infer_icon fs))
    (if collected.1.isEmpty then none else some collected.1)
    collected.2.head?

/-- The formatted KeyValue of `object_to_keyvalue_grid` (lines 258-273); its
coercion differs from the Card-builder in that nested objects are always
JSON-dumped (no `login`/`name` extraction). -/
def mkGridKV (k : String) (v : JSON) : KeyValueComponent :=
  let coerced : JSON :=
    match v with
    | .obj fs => .str (jsonDumps (.obj fs))
    | .arr xs => .str ("[" ++ toString xs.length ++ " items]")
    | .num n => .str (if 1000 ≤ n then intWithCommas n else toString n)
    | other => .str (pyStr other)
  ⟨format_field_name k, truncate_text (strip_html coerced) 200⟩

/-- Source `object_to_keyvalue_grid(obj)`. -/
def object_to_keyvalue_grid : List (String × JSON) → List KeyValueComponent
  | [] => []
  | (k, v) :: rest =>
    if isNoneOrEmpty v then object_to_keyvalue_grid rest
    else if should_skip_field k v then object_to_keyvalue_grid rest
    else mkGridKV k v :: object_to_keyvalue_grid rest

/-- The raw input of `bind_data` and of the provider overrides.  `blocks`
is a non-empty Python list whose first element is an MCP TextContent;
each carried `JSON` is the result of `json.loads` on the block's text
with the string itself as fallback on decode failure (the source handles
that failure inline, so block payloads are modelled post-decode; a block
whose text is not JSON is a `.str` leaf).  `value` is any other input:
a bare JSON value, including a Python list with a first element that has
no `text` attribute. -/
inductive RawInput where
  | blocks (first : JSON) (rest : List JSON)
  | value (v : JSON)

/-- The content-block unwrapping step of `bind_data` (lines 295-324): one
block unwraps to its payload, several stay a sequence; non-block input is
used as-is. -/
def parseRaw : RawInput → JSON
  | .blocks t [] => t
  | .blocks t (x :: xs) => .arr (t :: x :: xs)
  | .value v => v

/-- Map a sequence of parsed elements through the Card-builder
(`[object_to_card(obj) for obj in ...]`): a non-mapping element makes
`object_to_card` raise (its `in`/`.items()` probes fail on such values),
which the enclosing `try` later converts to an error Banner. -/
def cardsOf : List JSON → Except String (List Component)
  | [] => .ok []
  | JSON.obj fs :: rest =>
    match cardsOf rest with
    | .ok cs => .ok (object_to_card fs 10 :: cs)
    | .error e => .error e
  | _ :: _ => .error "TypeError: argument of type non-mapping is not iterable"

/-- Wrap the first 20 cards in a List component (lines 332-333). -/
def listOfCards (elts : List JSON) : Except String Component :=
  match cardsOf elts with
  | .ok cs => .ok (.list cs)
  | .error e => .error e

/-- The preview message for a sequence of non-mapping elements (lines
336-338): string forms truncated to 50 characters each, first five
joined, with a total-count suffix when more than five. -/
def primitivePreview (elts : List JSON) : String :=
  let preview := ", ".intercalate ((elts.take 5).map (fun e => strTake (pyStr e) 50))
  if 5 < elts.length then preview ++ "... (" ++ toString elts.length ++ " total)"
  else preview

/-- The `items`/`results` unwrap probe (lines 348-358): commit to the
list-of-cards path only when the key holds a non-empty sequence whose
first element is a mapping; otherwise fall through. -/
def unwrapItems (fs : List (String × JSON)) (k : String) :
    Option (Except String Component) :=
  match lookupFirst fs k with
  | some (.arr (x :: xs)) =>
    match x with
    | .obj _ => some (listOfCards ((x :: xs).take 20))
    | _ => none
  | _ => none

/-- The fewer-than-5-keys object path (lines 361-377): exactly one
surviving KeyValue becomes a success Banner, otherwise a "Result" Card
carrying the (possibly empty) grid. -/
def smallObjectComponent (fs : List (String × JSON)) : Component :=
  match object_to_keyvalue_grid fs with
  | [kv] => .banner .success (kv.key ++ ": " ++ kv.value) (some "✓")
  | kvs => .card "Result" none (some "📋") (some kvs) none

/-- The body of `bind_data` under its `try` (lines 295-400): unwrap, then
dispatch on the shape of the parsed value. -/
def bindDataTry (d : RawInput) : Except String Component :=
  match parseRaw d with
  | .arr (x :: xs) =>
    match x with
    | .obj _ => listOfCards ((x :: xs).take 20)
    | _ => .ok (.banner .info (primitivePreview (x :: xs)) (some "📋"))
  | .obj fs =>
    match unwrapItems fs "items" with
    | some r => r
    | none =>
      match unwrapItems fs "results" with
      | some r => r
      | none =>
        if fs.length < 5 then .ok (smallObjectComponent fs)
        else .ok (object_to_card fs 10)
  | .str s => .ok (.banner .info (truncate_text (strip_htmlStr s) 200) (some "📄"))
  | v => .ok (.banner .info (pyStr v) (some "📋"))

/-- Source `bind_data(data)`: the body above guarded by the top-level
`except` that converts any internal fault into an error Banner with the
diagnostic truncated to 100 characters (line 407). -/
def bind_data (d : RawInput) : Component :=
  match bindDataTry d with
  | .ok c => c
  | .error e => .banner .error ("Data binding error: " ++ strTake e 100) (some "⚠")

/-- Pydantic validation of a string-typed component field: a non-string
value makes component construction raise (modelled as a fault; the claims
never depend on which concrete inputs fault, only on faults becoming
error Banners). -/
def asStr : JSON → Except String String
  | .str s => .ok s
  | _ => .error "ValidationError: str type expected"

/-- Python `description[:150] if description else None` followed by the
subtitle field validation: truthy non-strings fault (either at slicing or
at validation). -/
def subtitle150 (v : JSON) : Except String (Option String) :=
  if pyTruthy v then
    match v with
    | .str s => .ok (some (strTake s 150))
    | _ => .error "TypeError: unsliceable description"
  else .ok none

/-- Model of `urllib.parse.urlparse(url).netloc`: the authority between the
scheme separator and the first `/`, `?` or `#` (userinfo/port handling
and scheme validation of the stdlib are not modelled; no claim inspects
the extracted value). -/
def urlNetloc (s : String) : String :=
  match s.splitOn "://" with
  | _ :: rest1 :: _ => ⟨rest1.data.takeWhile (fun c => c ≠ '/' ∧ c ≠ '?' ∧ c ≠ '#')⟩
  | _ => ""

/-- Conditional KeyValue of the override mappers (`if value:` guarding a
`KeyValueComponent(key=label, value=value)` construction): falsy values
contribute nothing, truthy non-strings fault at validation. -/
def validatedKV (label : String) (v : JSON) : Except String (List KeyValueComponent) :=
  if pyTruthy v then
    match asStr v with
    | .ok s => .ok [⟨label, s⟩]
    | .error e => .error e
  else .ok []

/-- Conditional Link of the override mappers (`LinkComponent(text=...,
url=url) if url else None`). -/
def validatedLink (text : String) (v : JSON) : Except String (Option LinkComponent) :=
  if pyTruthy v then
    match asStr v with
    | .ok s => .ok (some ⟨text, s⟩)
    | .error e => .error e
  else .ok none

/-- The `results` value of `map_github_search` (lines 61-79): the `items`
value of the first block's decoded payload when that payload is a mapping
carrying the key, else the initial empty list.  A block whose text fails
to decode leaves `results` empty in the source; in the post-decode block
model such a payload is a string leaf, which likewise is not a mapping. -/
def githubResults : RawInput → JSON
  | .blocks t _ =>
    match t with
    | .obj fs =>
      match lookupFirst fs "items" with
      | some v => v
      | none => .arr []
    | _ => .arr []
  | .value _ => .arr []

/-- One GitHub result row mapped to a Card (`map_github_search` lines
90-121); `.get` probing on a non-mapping row raises. -/
def githubCard (r : JSON) : Except String Component :=
  match r with
  | .obj fs =>
    let name := pyGet fs "name" (pyGet fs "full_name" (.str "Unknown"))
    let full_name := pyGet fs "full_name" name
    let description := pyGet fs "description" (.str "")
    let url := pyGet fs "html_url" (.str "")
    let stars := pyGet fs "stargazers_count" (.num 0)
    let language := pyGet fs "language" (.str "Unknown")
    let owner := pyGet fs "owner" (.obj [])
    let ownerLogin :=
      match owner with
      | .obj ofs => pyGet ofs "login" (.str "Unknown")
      | _ => .str "Unknown"
    let starsMd : List KeyValueComponent :=
      if isNullJ stars then [] else [⟨"⭐ Stars", pyStr stars⟩]
    match validatedKV "💻 Language" language with
    | .error e => .error e
    | .ok langMd =>
      match validatedKV "👤 Owner" ownerLogin with
      | .error e => .error e
      | .ok ownerMd =>
        let metadata := starsMd ++ langMd ++ ownerMd
        match validatedLink "View on GitHub" url with
        | .error e => .error e
        | .ok link =>
          match subtitle150 description with
          | .error e => .error e
          | .ok subtitle =>
            match asStr full_name with
            | .error e => .error e
            | .ok titleS =>
              .ok (.card titleS subtitle (some "📦")
                (if metadata.isEmpty then none else some metadata) link)
  | _ => .error "AttributeError: no get on non-mapping result"

/-- The result loop of `map_github_search`. -/
def githubCards : List JSON → Except String (List Component)
  | [] => .ok []
  | r :: rest =>
    match githubCard r with
    | .ok c =>
      match githubCards rest with
      | .ok cs => .ok (c :: cs)
      | .error e => .error e
    | .error e => .error e

/-- The body of `map_github_search` under its `try`: falsy `results` yield
the info Banner; a truthy non-sequence faults at the `[:10]` slice. -/
def githubBody (d : RawInput) : Except String Component :=
  let results := githubResults d
  if pyTruthy results then
    match results with
    | .arr items =>
      match githubCards (items.take 10) with
      | .ok cs => .ok (.list cs)
      | .error e => .error e
    | _ => .error "TypeError: slicing a non-sequence"
  else .ok (.banner .info "No repositories found" (some "📦"))

/-- Source `map_github_search(data)` with its top-level `except`. -/
def map_github_search (d : RawInput) : Component :=
  match githubBody d with
  | .ok c => c
  | .error e =>
    .banner .error ("Error mapping GitHub results: " ++ strTake e 100) (some "⚠")

/-- The `results` list of `map_brave_search` (lines 35-40): every block
payload, in order; non-block input contributes nothing. -/
def braveResults : RawInput → List JSON
  | .blocks t ts => t :: ts
  | .value _ => []

/-- One Brave result row mapped to a Card (`map_brave_search` lines 51-77);
the domain extraction sits in an inner `try` whose failure is swallowed. -/
def braveCard (r : JSON) : Except String Component :=
  match r with
  | .obj fs =>
    let title := pyGet fs "title" (.str "No title")
    let description := pyGet fs "description" (.str "")
    let url := pyGet fs "url" (.str "")
    let metadata : List KeyValueComponent :=
      if pyTruthy url then
        match url with
        | .str s => [⟨"Source", urlNetloc s⟩]
        | _ => []
      else []
    match validatedLink "Open" url with
    | .error e => .error e
    | .ok link =>
      match subtitle150 description with
      | .error e => .error e
      | .ok subtitle =>
        match asStr title with
        | .error e => .error e
        | .ok titleS =>
          .ok (.card titleS subtitle (some "🔍")
            (if metadata.isEmpty then none else some metadata) link)
  | _ => .error "AttributeError: no get on non-mapping result"

/-- The result loop of `map_brave_search`. -/
def braveCards : List JSON → Except String (List Component)
  | [] => .ok []
  | r :: rest =>
    match braveCard r with
    | .ok c =>
      match braveCards rest with
      | .ok cs => .ok (c :: cs)
      | .error e => .error e
    | .error e => .error e

/-- The body of `map_brave_search` under its `try`. -/
def braveBody (d : RawInput) : Except String Component :=
  match braveResults d with
  | [] => .ok (.banner .info "No search results found" (some "🔍"))
  | r :: rest =>
    match braveCards ((r :: rest).take 5) with
    | .ok cs => .ok (.list cs)
    | .error e => .error e

/-- Source `map_brave_search(data)` with its top-level `except`. -/
def map_brave_search (d : RawInput) : Component :=
  match braveBody d with
  | .ok c => c
  | .error e =>
    .banner .error ("Error mapping search results: " ++ strTake e 100) (some "⚠")

/-- The cap invariant over a whole component tree: every List holds at most
20 items and every Card at most 10 KeyValue fields. -/
inductive CapOK : Component → Prop where
  | banner {ty msg icon} : CapOK (.banner ty msg icon)
  | card {t s i md l} : (md.getD []).length ≤ 10 → CapOK (.card t s i md l)
  | list {items} : items.length ≤ 20 → (∀ x ∈ items, CapOK x) → CapOK (.list items)

/-- Scenario 1 input: the GitHub repository object supplied as the sole
content-block payload. -/
def c4input : RawInput :=
  .blocks (.obj [("name", .str "react"), ("description", .str "A lib"),
    ("html_url", .str "https://github.com/facebook/react"),
    ("stargazers_count", .num 220000), ("id", .num 1),
    ("created_at", .str "2013-01-01")]) []

lemma strTake_length_le (s : String) (n : Nat) : (strTake s n).length ≤ n := by
  simp only [strTake, String.length]
  simp

lemma collectFields_kvs_length (tk : Option String) (fs : List (String × JSON)) :
    ∀ cnt, cnt < 10 → (collectFields 10 tk fs cnt).1.length ≤ 10 - cnt := by
  induction fs with
  | nil => intro cnt _; simp [collectFields]
  | cons hd tl ih =>
    intro cnt hcnt
    obtain ⟨k, v⟩ := hd
    simp only [collectFields]
    split_ifs with h1 h2 h3 h4 h5
    · exact ih cnt hcnt
    · exact ih cnt hcnt
    · exact ih cnt hcnt
    · exact ih cnt hcnt
    · simp; omega
    · have := ih (cnt + 1) (by omega)
      simp only [List.length_cons]
      omega

lemma collectFields_kv_mem (m : Nat) (tk : Option String)
    (fs : List (String × JSON)) :
    ∀ cnt kv, kv ∈ (collectFields m tk fs cnt).1 →
      ∃ k v, (k, v) ∈ fs ∧ isNoneOrEmpty v = false ∧
        should_skip_field k v = false ∧ is_url_field k v = false ∧
        kv = mkCardKV k v := by
  induction fs with
  | nil => intro cnt kv h; simp [collectFields] at h
  | cons hd tl ih =>
    intro cnt kv h
    obtain ⟨k, v⟩ := hd
    simp only [collectFields] at h
    split_ifs at h with h1 h2 h3 h4 h5
    · obtain ⟨k1, v1, hm, hrest⟩ := ih cnt kv h
      exact ⟨k1, v1, List.mem_cons_of_mem _ hm, hrest⟩
    · obtain ⟨k1, v1, hm, hrest⟩ := ih cnt kv h
      exact ⟨k1, v1, List.mem_cons_of_mem _ hm, hrest⟩
    · obtain ⟨k1, v1, hm, hrest⟩ := ih cnt kv h
      exact ⟨k1, v1, List.mem_cons_of_mem _ hm, hrest⟩
    · obtain ⟨k1, v1, hm, hrest⟩ := ih cnt kv h
      exact ⟨k1, v1, List.mem_cons_of_mem _ hm, hrest⟩
    · simp at h
      exact ⟨k, v, List.mem_cons_self _ _, by simpa using h2,
        by simpa using h3, by simpa using h4, h⟩
    · rcases List.mem_cons.1 h with h | h
      · exact ⟨k, v, List.mem_cons_self _ _, by simpa using h2,
          by simpa using h3, by simpa using h4, h⟩
      · obtain ⟨k1, v1, hm, hrest⟩ := ih (cnt + 1) kv h
        exact ⟨k1, v1, List.mem_cons_of_mem _ hm, hrest⟩

lemma grid_length_le (fs : List (String × JSON)) :
    (object_to_keyvalue_grid fs).length ≤ fs.length := by
  induction fs with
  | nil => simp [object_to_keyvalue_grid]
  | cons hd tl ih =>
    obtain ⟨k, v⟩ := hd
    simp only [object_to_keyvalue_grid]
    split_ifs with h1 h2
    · simpa using Nat.le_succ_of_le ih
    · simpa using Nat.le_succ_of_le ih
    · simpa using ih

lemma grid_kv_mem (fs : List (String × JSON)) :
    ∀ kv, kv ∈ object_to_keyvalue_grid fs →
      ∃ k v, (k, v) ∈ fs ∧ isNoneOrEmpty v = false ∧
        should_skip_field k v = false ∧ kv = mkGridKV k v := by
  induction fs with
  | nil => intro kv h; simp [object_to_keyvalue_grid] at h
  | cons hd tl ih =>
    intro kv h
    obtain ⟨k, v⟩ := hd
    simp only [object_to_keyvalue_grid] at h
    split_ifs at h with h1 h2
    · obtain ⟨k1, v1, hm, hrest⟩ := ih kv h
      exact ⟨k1, v1, List.mem_cons_of_mem _ hm, hrest⟩
    · obtain ⟨k1, v1, hm, hrest⟩ := ih kv h
      exact ⟨k1, v1, List.mem_cons_of_mem _ hm, hrest⟩
    · rcases List.mem_cons.1 h with h | h
      · exact ⟨k, v, List.mem_cons_self _ _, by simpa using h1,
          by simpa using h2, h⟩
      · obtain ⟨k1, v1, hm, hrest⟩ := ih kv h
        exact ⟨k1, v1, List.mem_cons_of_mem _ hm, hrest⟩

lemma cardFields_object_to_card (fs : List (String × JSON)) (m : Nat) :
    cardFields (object_to_card fs m) = (collectFields m (titleOf fs).2 fs 0).1 := by
  simp only [object_to_card, cardFields]
  split_ifs with h
  · simpa [Option.getD] using (List.isEmpty_iff.1 h).symm
  · rfl

lemma object_to_card_capOK (fs : List (String × JSON)) :
    CapOK (object_to_card fs 10) := by
  have hlen : (collectFields 10 (titleOf fs).2 fs 0).1.length ≤ 10 := by
    simpa using collectFields_kvs_length (titleOf fs).2 fs 0 (by omega)
  simp only [object_to_card]
  split_ifs with h
  · exact .card (by simp)
  · exact .card (by simpa using hlen)

lemma cardsOf_ok (l : List JSON) :
    ∀ cs, cardsOf l = .ok cs →
      cs.length = l.length ∧ ∀ c ∈ cs, ∃ fs, c = object_to_card fs 10 := by
  induction l with
  | nil =>
    intro cs h
    simp only [cardsOf, Except.ok.injEq] at h
    refine ⟨by simp [← h], ?_⟩
    intro c hc
    rw [← h] at hc
    simp at hc
  | cons hd tl ih =>
    intro cs h
    match hd with
    | .obj fs =>
      simp only [cardsOf] at h
      cases htl : cardsOf tl with
      | ok cs2 =>
        rw [htl] at h
        cases h
        obtain ⟨hlen, hmem⟩ := ih cs2 htl
        refine ⟨by simp [hlen], ?_⟩
        intro c hc
        rcases List.mem_cons.1 hc with hc | hc
        · exact ⟨fs, hc⟩
        · exact hmem c hc
      | error e => rw [htl] at h; cases h
    | .null => simp [cardsOf] at h
    | .bool b => simp [cardsOf] at h
    | .num n => simp [cardsOf] at h
    | .str s => simp [cardsOf] at h
    | .arr xs => simp [cardsOf] at h

lemma listOfCards_capOK (l : List JSON) (hl : l.length ≤ 20) :
    ∀ c, listOfCards l = .ok c → CapOK c := by
  intro c h
  simp only [listOfCards] at h
  cases hc : cardsOf l with
  | ok cs =>
    rw [hc] at h
    cases h
    obtain ⟨hlen, hmem⟩ := cardsOf_ok l cs hc
    refine .list (by omega) ?_
    intro x hx
    obtain ⟨fs, hfs⟩ := hmem x hx
    exact hfs ▸ object_to_card_capOK fs
  | error e => rw [hc] at h; cases h

lemma unwrapItems_capOK (fs : List (String × JSON)) (k : String) :
    ∀ r c, unwrapItems fs k = some r → r = .ok c → CapOK c := by
  intro r c hr hc
  simp only [unwrapItems] at hr
  split at hr
  next x xs hl =>
    split at hr
    next => cases hr; exact listOfCards_capOK _ (by simp) c hc
    next => cases hr
  next => cases hr

lemma smallObjectComponent_capOK (fs : List (String × JSON))
    (hlen : fs.length < 5) : CapOK (smallObjectComponent fs) := by
  have h1 : (object_to_keyvalue_grid fs).length ≤ fs.length := grid_length_le fs
  simp only [smallObjectComponent]
  split
  next => exact .banner
  next kvs hkvs =>
    refine .card ?_
    simp only [Option.getD_some]
    omega

lemma bindDataTry_ok_capOK (d : RawInput) :
    ∀ c, bindDataTry d = .ok c → CapOK c := by
  intro c h
  simp only [bindDataTry] at h
  cases hp : parseRaw d with
  | null => rw [hp] at h; simp only [Except.ok.injEq] at h; exact h ▸ .banner
  | bool b => rw [hp] at h; simp only [Except.ok.injEq] at h; exact h ▸ .banner
  | num n => rw [hp] at h; simp only [Except.ok.injEq] at h; exact h ▸ .banner
  | str s => rw [hp] at h; simp only [Except.ok.injEq] at h; exact h ▸ .banner
  | arr elts =>
    rw [hp] at h
    cases elts with
    | nil => simp only [Except.ok.injEq] at h; exact h ▸ .banner
    | cons x xs =>
      cases x with
      | obj fs =>
        exact listOfCards_capOK _ (by simp) c h
      | null => simp only [Except.ok.injEq] at h; exact h ▸ .banner
      | bool b => simp only [Except.ok.injEq] at h; exact h ▸ .banner
      | num n => simp only [Except.ok.injEq] at h; exact h ▸ .banner
      | str s => simp only [Except.ok.injEq] at h; exact h ▸ .banner
      | arr ys => simp only [Except.ok.injEq] at h; exact h ▸ .banner
  | obj fs =>
    rw [hp] at h
    cases hi : unwrapItems fs "items" with
    | some r =>
      simp only [hi] at h
      exact unwrapItems_capOK fs "items" r c hi h
    | none =>
      simp only [hi] at h
      cases hr : unwrapItems fs "results" with
      | some r =>
        simp only [hr] at h
        exact unwrapItems_capOK fs "results" r c hr h
      | none =>
        simp only [hr] at h
        split_ifs at h with hlen
        · simp only [Except.ok.injEq] at h
          exact h ▸ smallObjectComponent_capOK fs hlen
        · simp only [Except.ok.injEq] at h
          exact h ▸ object_to_card_capOK fs

lemma githubCards_length (l : List JSON) :
    ∀ cs, githubCards l = .ok cs → cs.length = l.length := by
  induction l with
  | nil => intro cs h; simp [githubCards] at h; simp [← h]
  | cons hd tl ih =>
    intro cs h
    simp only [githubCards] at h
    cases hc : githubCard hd with
    | ok c =>
      rw [hc] at h
      cases htl : githubCards tl with
      | ok cs2 => rw [htl] at h; cases h; simp [ih cs2 htl]
      | error e => rw [htl] at h; cases h
    | error e => rw [hc] at h; cases h

lemma braveCards_length (l : List JSON) :
    ∀ cs, braveCards l = .ok cs → cs.length = l.length := by
  induction l with
  | nil => intro cs h; simp [braveCards] at h; simp [← h]
  | cons hd tl ih =>
    intro cs h
    simp only [braveCards] at h
    cases hc : braveCard hd with
    | ok c =>
      rw [hc] at h
      cases htl : braveCards tl with
      | ok cs2 => rw [htl] at h; cases h; simp [ih cs2 htl]
      | error e => rw [htl] at h; cases h
    | error e => rw [hc] at h; cases h

lemma length_pos_of_ne_empty (s : String) (h : s ≠ "") : 0 < s.length := by
  cases s with
  | mk data =>
    cases data with
    | nil => simp at h
    | cons c rest =>
      have h2 : (String.mk (c :: rest)).length = (c :: rest).length := rfl
      simp [h2]

/-- C1: the generic inference entry point `bind_data` is total on every
raw input — it always returns a Component (never an exception), and any
internal fault of its body surfaces as an error-severity Banner whose
diagnostic portion (the slice `str(e)[:100]`) is at most 100 characters. -/
theorem bindData_no_throw :
    (∀ d : RawInput, ∃ c : Component, bind_data d = c) ∧
    (∀ (d : RawInput) (e : String), bindDataTry d = .error e →
      bind_data d =
        .banner .error ("Data binding error: " ++ strTake e 100) (some "⚠")) ∧
    (∀ e : String, (strTake e 100).length ≤ 100) := by
  refine ⟨fun d => ⟨_, rfl⟩, ?_, fun e => strTake_length_le e 100⟩
  intro d e h
  simp only [bind_data, h]

/-- C1 witness: a mixed sequence whose first element is a mapping makes the
body fault on the second element, and `bind_data` converts that fault to
the truncated error Banner. -/
theorem bindData_no_throw_witness :
    bindDataTry (.value (.arr [.obj [], .num 1])) =
      .error "TypeError: argument of type non-mapping is not iterable" ∧
    bind_data (.value (.arr [.obj [], .num 1])) =
      .banner .error
        ("Data binding error: " ++
          strTake "TypeError: argument of type non-mapping is not iterable" 100)
        (some "⚠") :=
  ⟨rfl, bindData_no_throw.2.1 (.value (.arr [.obj [], .num 1]))
    "TypeError: argument of type non-mapping is not iterable" rfl⟩

/-- C2: every component tree returned by `bind_data` satisfies the cap
invariant — each List holds at most 20 items and each Card at most 10
KeyValue fields, on every input (including the items/results-unwrap
paths and the error path). -/
theorem bindData_caps (d : RawInput) : CapOK (bind_data d) := by
  unfold bind_data
  cases h : bindDataTry d with
  | ok c => exact bindDataTry_ok_capOK d c h
  | error e => exact .banner

/-- C6: `truncate_text` returns its input unchanged when within the limit;
otherwise it returns the first `n` characters followed by the 3-character
ellipsis marker, giving length exactly `n + 3` and an ellipsis suffix; at
limit 0 a non-empty string collapses to just the marker. -/
theorem truncate_text_spec (s : String) (n : Nat) :
    (s.length ≤ n → truncate_text s n = s) ∧
    (n < s.length →
      truncate_text s n = strTake s n ++ "..." ∧
      (truncate_text s n).length = n + 3 ∧
      ∃ p, truncate_text s n = p ++ "...") ∧
    (s ≠ "" → truncate_text s 0 = "...") := by
  refine ⟨?_, ?_, ?_⟩
  · intro h
    simp [truncate_text, h]
  · intro h
    have hle : ¬ s.length ≤ n := by omega
    have he : truncate_text s n = strTake s n ++ "..." := by
      simp [truncate_text, hle]
    refine ⟨he, ?_, ⟨strTake s n, he⟩⟩
    rw [he, String.length_append]
    have h2 : (strTake s n).length = n := by
      simp only [strTake, String.length]
      rw [List.length_take]
      have h3 : s.length = s.data.length := rfl
      omega
    have h4 : ("..." : String).length = 3 := rfl
    omega
  · intro h
    have h0 : 0 < s.length := length_pos_of_ne_empty s h
    have hle : ¬ s.length ≤ 0 := by omega
    simp only [truncate_text, hle, if_false]
    have h1 : strTake s 0 = "" := rfl
    rw [h1]
    rfl

/-- C6 witness: both branches and the zero-limit edge case exercised at
concrete inputs. -/
theorem truncate_text_spec_witness :
    ("hello".length ≤ 10 ∧ truncate_text "hello" 10 = "hello") ∧
    (3 < "hello".length ∧ truncate_text "hello" 3 = "hel..." ∧
      (truncate_text "hello" 3).length = 3 + 3) ∧
    ("hi" ≠ "" ∧ truncate_text "hi" 0 = "...") := by
  refine ⟨⟨by decide, (truncate_text_spec "hello" 10).1 (by decide)⟩,
    ⟨by decide, ?_, ?_⟩,
    ⟨by decide, (truncate_text_spec "hi" 0).2.2 (by decide)⟩⟩
  · exact ((truncate_text_spec "hello" 3).2.1 (by decide)).1
  · exact ((truncate_text_spec "hello" 3).2.1 (by decide)).2.1

/-- C10: the empty mapping, given directly or as the sole decoded
content-block payload, produces a Card titled "Result" with the generic
clipboard icon and an empty field list — no exception and no Banner. -/
theorem empty_object_result_card :
    bind_data (.value (.obj [])) = .card "Result" none (some "📋") (some []) none ∧
    bind_data (.blocks (.obj []) []) = .card "Result" none (some "📋") (some []) none ∧
    (∀ ty msg icon, bind_data (.value (.obj [])) ≠ .banner ty msg icon) := by
  refine ⟨rfl, rfl, ?_⟩
  intro ty msg icon h
  rw [show bind_data (.value (.obj [])) =
    .card "Result" none (some "📋") (some []) none from rfl] at h
  exact Component.noConfusion h

/-- C3 (amended): in the Card-builder `object_to_card` a field classified
as URL-like by `is_url_field` is never emitted as a KeyValue — every
emitted field stems from a non-URL source field.  (The fewer-than-5-keys
path does not share this loop; see the counterexample.) -/
theorem card_builder_url_exclusive (fs : List (String × JSON))
    (kv : KeyValueComponent) (h : kv ∈ cardFields (object_to_card fs 10)) :
    ∃ k v, (k, v) ∈ fs ∧ is_url_field k v = false ∧ kv = mkCardKV k v := by
  rw [cardFields_object_to_card] at h
  obtain ⟨k, v, hm, _, _, hurl, hkv⟩ :=
    collectFields_kv_mem 10 (titleOf fs).2 fs 0 kv h
  exact ⟨k, v, hm, hurl, hkv⟩

/-- C3 witness: a non-URL field of an object with a `name` title survives
into the Card field list, and the theorem traces it back to its source
field. -/
theorem card_builder_url_exclusive_witness :
    ((⟨"Description", "A lib"⟩ : KeyValueComponent) ∈
      cardFields (object_to_card
        [("name", .str "react"), ("description", .str "A lib")] 10)) ∧
    (∃ k v, (k, v) ∈ [("name", JSON.str "react"), ("description", JSON.str "A lib")] ∧
      is_url_field k v = false ∧
      (⟨"Description", "A lib"⟩ : KeyValueComponent) = mkCardKV k v) :=
  ⟨by decide,
    card_builder_url_exclusive
      [("name", .str "react"), ("description", .str "A lib")]
      ⟨"Description", "A lib"⟩ (by decide)⟩

/-- C3 counterexample: in the fewer-than-5-keys path the key-value set is
built by `object_to_keyvalue_grid`, which has no URL classification, so a
URL-like field is emitted as a KeyValue in the resulting "Result" Card —
the claim as stated fails there. -/
theorem url_kv_in_small_object_cex :
    is_url_field "url" (.str "https://e.com") = true ∧
    bind_data (.value (.obj [("a", .str "x"), ("url", .str "https://e.com")])) =
      .card "Result" none (some "📋")
        (some [⟨"A", "x"⟩, ⟨"Url", "https://e.com"⟩]) none ∧
    (⟨"Url", "https://e.com"⟩ : KeyValueComponent) ∈
      cardFields (bind_data
        (.value (.obj [("a", .str "x"), ("url", .str "https://e.com")]))) :=
  ⟨by decide, rfl, by decide⟩

/-- C4: the GitHub repository object supplied as the sole content-block
payload yields a single Card titled "react" whose fields are exactly the
Description and the thousands-grouped Stargazers Count, whose link goes
to the repository URL, and which carries no Id or Created At entry. -/
theorem github_repo_scenario :
    bind_data c4input = .card "react" none (some "📋")
      (some [⟨"Description", "A lib"⟩, ⟨"Stargazers Count", "220,000"⟩])
      (some ⟨"Html Url", "https://github.com/facebook/react"⟩) ∧
    (⟨"Description", "A lib"⟩ : KeyValueComponent) ∈ cardFields (bind_data c4input) ∧
    (⟨"Stargazers Count", "220,000"⟩ : KeyValueComponent) ∈ cardFields (bind_data c4input) ∧
    (∀ kv ∈ cardFields (bind_data c4input), kv.key ≠ "Id" ∧ kv.key ≠ "Created At") :=
  ⟨rfl, by decide, by decide, by decide⟩

/-- C5: `should_skip_field` holds exactly when one of the independent skip
conditions holds (boolean value, `id`/`*_id` key, `*_at` key, denylisted
key), and every KeyValue emitted by the Card-builder or by the key-value
grid stems from a field that is not skip-classified — a skipped field
never produces a formatted entry. -/
theorem should_skip_field_spec :
    (∀ (k : String) (v : JSON), should_skip_field k v =
      (isBoolJ v || (pyLower k == "id" || strEndsWith (pyLower k) "_id") ||
        strEndsWith (pyLower k) "_at" ||
        ["node_id", "sha", "etag", "gravatar_id"].contains (pyLower k))) ∧
    (∀ (fs : List (String × JSON)) (kv : KeyValueComponent),
      kv ∈ cardFields (object_to_card fs 10) →
      ∃ k v, (k, v) ∈ fs ∧ should_skip_field k v = false ∧ kv = mkCardKV k v) ∧
    (∀ (fs : List (String × JSON)) (kv : KeyValueComponent),
      kv ∈ object_to_keyvalue_grid fs →
      ∃ k v, (k, v) ∈ fs ∧ should_skip_field k v = false ∧ kv = mkGridKV k v) := by
  refine ⟨?_, ?_, ?_⟩
  · intro k v
    simp only [should_skip_field]
    split_ifs with h1 h2 h3 h4 <;> simp_all
  · intro fs kv h
    rw [cardFields_object_to_card] at h
    obtain ⟨k, v, hm, _, hskip, _, hkv⟩ :=
      collectFields_kv_mem 10 (titleOf fs).2 fs 0 kv h
    exact ⟨k, v, hm, hskip, hkv⟩
  · intro fs kv h
    obtain ⟨k, v, hm, _, hskip, hkv⟩ := grid_kv_mem fs kv h
    exact ⟨k, v, hm, hskip, hkv⟩

/-- C5 witness: both provenance statements applied at concrete objects
containing skipped and kept fields. -/
theorem should_skip_field_spec_witness :
    ((⟨"Description", "A lib"⟩ : KeyValueComponent) ∈
      cardFields (object_to_card
        [("name", .str "react"), ("id", .num 7), ("description", .str "A lib")] 10)) ∧
    (∃ k v, (k, v) ∈ [("name", JSON.str "react"), ("id", JSON.num 7),
        ("description", JSON.str "A lib")] ∧
      should_skip_field k v = false ∧
      (⟨"Description", "A lib"⟩ : KeyValueComponent) = mkCardKV k v) ∧
    ((⟨"Status", "active"⟩ : KeyValueComponent) ∈
      object_to_keyvalue_grid [("status", .str "active"), ("node_id", .str "x")]) ∧
    (∃ k v, (k, v) ∈ [("status", JSON.str "active"), ("node_id", JSON.str "x")] ∧
      should_skip_field k v = false ∧
      (⟨"Status", "active"⟩ : KeyValueComponent) = mkGridKV k v) :=
  ⟨by decide,
    should_skip_field_spec.2.1
      [("name", .str "react"), ("id", .num 7), ("description", .str "A lib")]
      ⟨"Description", "A lib"⟩ (by decide),
    by decide,
    should_skip_field_spec.2.2
      [("status", .str "active"), ("node_id", .str "x")]
      ⟨"Status", "active"⟩ (by decide)⟩

/-- C7 (amended): a non-empty sequence of non-mapping elements reaching
shape dispatch is emitted as an info Banner whose message joins the
string forms of up to the first 5 elements — each truncated to its first
50 characters — with a total-count suffix when more than 5 elements are
present. -/
theorem primitive_sequence_banner (d : RawInput) (x : JSON) (xs : List JSON)
    (hp : parseRaw d = .arr (x :: xs))
    (hprim : ∀ e ∈ x :: xs, isObjJ e = false) :
    bind_data d = .banner .info
      (let preview :=
        ", ".intercalate (((x :: xs).take 5).map (fun e => strTake (pyStr e) 50))
       if 5 < (x :: xs).length
       then preview ++ "... (" ++ toString (x :: xs).length ++ " total)"
       else preview)
      (some "📋") := by
  have hx : isObjJ x = false := hprim x (List.mem_cons_self _ _)
  have hbody : bindDataTry d =
      .ok (.banner .info (primitivePreview (x :: xs)) (some "📋")) := by
    simp only [bindDataTry, hp]
    cases x with
    | obj fs => simp [isObjJ] at hx
    | null => rfl
    | bool b => rfl
    | num n => rfl
    | str s => rfl
    | arr ys => rfl
  simp only [bind_data, hbody, primitivePreview]

/-- C7 witness: a two-element numeric sequence produces the joined preview
Banner. -/
theorem primitive_sequence_banner_witness :
    parseRaw (.value (.arr [.num 1, .num 2])) = .arr [.num 1, .num 2] ∧
    (∀ e ∈ [JSON.num 1, JSON.num 2], isObjJ e = false) ∧
    bind_data (.value (.arr [.num 1, .num 2])) =
      .banner .info "1, 2" (some "📋") :=
  ⟨rfl, by decide,
    primitive_sequence_banner (.value (.arr [.num 1, .num 2]))
      (.num 1) [.num 2] rfl (by decide)⟩

/-- C7 counterexample: the claim as stated omits the per-element 50-character
truncation — a single 60-character string element yields a Banner message
of only its first 50 characters, not its full string form. -/
theorem primitive_preview_truncation_cex :
    bind_data (.value (.arr [.str (String.mk (List.replicate 60 'a'))])) =
      .banner .info (String.mk (List.replicate 50 'a')) (some "📋") ∧
    String.mk (List.replicate 50 'a') ≠ String.mk (List.replicate 60 'a') ∧
    pyStr (.str (String.mk (List.replicate 60 'a'))) =
      String.mk (List.replicate 60 'a') :=
  ⟨rfl, by decide, rfl⟩

/-- C8: the text sanitizer decodes HTML character entities and strips markup
retaining the text content (`sanitize("Claude&#x27;s API")` and the
tagged "Hello world" example), and its markup-parsing stage is guarded:
whenever the parser fails, the entity-decoded text is returned unchanged
instead of an exception propagating. -/
theorem strip_html_sanitizer_spec :
    strip_htmlStr "Claude&#x27;s API" = "Claude\x27s API" ∧
    strip_htmlStr "<p>Hello <strong>world</strong></p>" = "Hello world" ∧
    (∀ t : String, strip_htmlStr t = stripHtmlWith htmlStripParse t) ∧
    (∀ (p : String → Except Unit String) (t : String),
      ((pyUnescape t).data.contains '<' || (pyUnescape t).data.contains '>') = true →
      p (pyUnescape t) = .error () →
      stripHtmlWith p t = pyUnescape t) := by
  refine ⟨by decide, by decide, fun t => rfl, ?_⟩
  intro p t h hp
  simp only [Bool.or_eq_true] at h
  rcases h with h | h <;> simp [stripHtmlWith, h, hp]

/-- C8 witness: the fallback clause applied to a parser that fails on a
markup-bearing input. -/
theorem strip_html_sanitizer_spec_witness :
    (((pyUnescape "<x>").data.contains '<' ||
      (pyUnescape "<x>").data.contains '>') = true) ∧
    ((fun _ : String => (Except.error () : Except Unit String)) (pyUnescape "<x>") =
      .error ()) ∧
    stripHtmlWith (fun _ => .error ()) "<x>" = pyUnescape "<x>" :=
  ⟨by decide, rfl,
    strip_html_sanitizer_spec.2.2.2 (fun _ => .error ()) "<x>" (by decide) rfl⟩

lemma githubBody_ok_list_ne_nil (d : RawInput) (cs : List Component)
    (h : githubBody d = .ok (.list cs)) : cs ≠ [] := by
  simp only [githubBody] at h
  split_ifs at h with ht
  · cases hr : githubResults d with
    | arr items =>
      rw [hr] at h
      cases hcs : githubCards (items.take 10) with
      | ok cs2 =>
        simp only [hcs] at h
        simp only [Except.ok.injEq, Component.list.injEq] at h
        have hlen := githubCards_length _ cs2 hcs
        have hne : items ≠ [] := by
          rw [hr] at ht
          simp [pyTruthy] at ht
          exact ht
        intro hnil
        rw [h, hnil] at hlen
        cases items with
        | nil => exact hne rfl
        | cons a as => simp [List.length_take] at hlen
      | error e => simp only [hcs] at h; simp at h
    | null => rw [hr] at h; cases h
    | bool b => rw [hr] at h; cases h
    | num n => rw [hr] at h; cases h
    | str s => rw [hr] at h; cases h
    | obj fs => rw [hr] at h; cases h
  · cases h

lemma braveBody_ok_list_ne_nil (d : RawInput) (cs : List Component)
    (h : braveBody d = .ok (.list cs)) : cs ≠ [] := by
  simp only [braveBody] at h
  cases hr : braveResults d with
  | nil => rw [hr] at h; cases h
  | cons r rest =>
    rw [hr] at h
    cases hcs : braveCards ((r :: rest).take 5) with
    | ok cs2 =>
      simp only [hcs] at h
      simp only [Except.ok.injEq, Component.list.injEq] at h
      have hlen := braveCards_length _ cs2 hcs
      intro hnil
      rw [h, hnil] at hlen
      simp [List.length_take] at hlen
    | error e => simp only [hcs] at h; simp at h

/-- C9: both provider overrides are total — any internal fault of their
bodies surfaces as an error Banner whose diagnostic slice is at most 100
characters — and when no matching result items are found they return an
info Banner with the provider-appropriate icon and message; they never
return an empty List. -/
theorem overrides_total_spec :
    (∀ d : RawInput, ∃ c : Component, map_github_search d = c) ∧
    (∀ (d : RawInput) (e : String), githubBody d = .error e →
      map_github_search d =
        .banner .error ("Error mapping GitHub results: " ++ strTake e 100) (some "⚠") ∧
      (strTake e 100).length ≤ 100) ∧
    (∀ d : RawInput, pyTruthy (githubResults d) = false →
      map_github_search d = .banner .info "No repositories found" (some "📦")) ∧
    (∀ d : RawInput, ∀ cs, map_github_search d = .list cs → cs ≠ []) ∧
    (∀ d : RawInput, ∃ c : Component, map_brave_search d = c) ∧
    (∀ (d : RawInput) (e : String), braveBody d = .error e →
      map_brave_search d =
        .banner .error ("Error mapping search results: " ++ strTake e 100) (some "⚠") ∧
      (strTake e 100).length ≤ 100) ∧
    (∀ d : RawInput, braveResults d = [] →
      map_brave_search d = .banner .info "No search results found" (some "🔍")) ∧
    (∀ d : RawInput, ∀ cs, map_brave_search d = .list cs → cs ≠ []) := by
  refine ⟨fun d => ⟨_, rfl⟩, ?_, ?_, ?_, fun d => ⟨_, rfl⟩, ?_, ?_, ?_⟩
  · intro d e h
    exact ⟨by simp only [map_github_search, h], strTake_length_le e 100⟩
  · intro d h
    simp only [map_github_search, githubBody, h, Bool.false_eq_true, if_false]
  · intro d cs h
    unfold map_github_search at h
    cases hb : githubBody d with
    | ok c =>
      rw [hb] at h
      simp only at h
      exact githubBody_ok_list_ne_nil d cs (h ▸ hb)
    | error e => rw [hb] at h; cases h
  · intro d e h
    exact ⟨by simp only [map_brave_search, h], strTake_length_le e 100⟩
  · intro d h
    simp only [map_brave_search, braveBody, h]
  · intro d cs h
    unfold map_brave_search at h
    cases hb : braveBody d with
    | ok c =>
      rw [hb] at h
      simp only at h
      exact braveBody_ok_list_ne_nil d cs (h ▸ hb)
    | error e => rw [hb] at h; cases h

/-- C9 witness: the no-matching-items clauses at a bare null input, and the
fault clause at a payload whose `items` value is a non-sequence. -/
theorem overrides_total_spec_witness :
    pyTruthy (githubResults (.value .null)) = false ∧
    map_github_search (.value .null) =
      .banner .info "No repositories found" (some "📦") ∧
    braveResults (.value .null) = [] ∧
    map_brave_search (.value .null) =
      .banner .info "No search results found" (some "🔍") ∧
    githubBody (.blocks (.obj [("items", .num 5)]) []) =
      .error "TypeError: slicing a non-sequence" ∧
    map_github_search (.blocks (.obj [("items", .num 5)]) []) =
      .banner .error
        ("Error mapping GitHub results: " ++ strTake "TypeError: slicing a non-sequence" 100)
        (some "⚠") :=
  ⟨by decide,
    overrides_total_spec.2.2.1 (.value .null) (by decide),
    rfl,
    overrides_total_spec.2.2.2.2.2.2.1 (.value .null) rfl,
    rfl,
    (overrides_total_spec.2.1 (.blocks (.obj [("items", .num 5)]) [])
      "TypeError: slicing a non-sequence" rfl).1⟩

end FlowGateway
